import Mathlib

set_option maxRecDepth 20000

/-!
Shallow embedding of the LLM evaluation module (`evaluatePrompt`,
`getGroqResponse`, `evaluateWithRubric`, `analyzePrompt`).  JavaScript
numbers are modelled as exact rationals extended with signed infinities and
NaN; the JavaScript regular expressions of the source are embedded through a
small backtracking matcher that enumerates alternatives in the engine's
priority order (leftmost position, greedy quantifiers, left alternative
first).  External chat-completion calls are passed in as explicit oracle
values, so the caught-exception control flow of the source becomes pattern
matching on an `Except` value.
-/

namespace LLMEval

/-- Single-quote character (code 39). -/
def chSQ : Char := Char.ofNat 39

/-- Double-quote character (code 34). -/
def chDQ : Char := Char.ofNat 34

/-- Opening curly brace character (code 123). -/
def chOpen : Char := Char.ofNat 123

/-- Closing curly brace character (code 125). -/
def chClose : Char := Char.ofNat 125

/-- Backslash character (code 92). -/
def chBS : Char := Char.ofNat 92

/-- Underscore character (code 95). -/
def chUnd : Char := Char.ofNat 95

/-- Decimal digit, the regex class `\d`. -/
def isDigitCh (c : Char) : Bool := 48 ≤ c.toNat && c.toNat ≤ 57

/-- ASCII letter, the regex class `[a-zA-Z]`. -/
def isAlphaCh (c : Char) : Bool :=
  (97 ≤ c.toNat && c.toNat ≤ 122) || (65 ≤ c.toNat && c.toNat ≤ 90)

/-- Word character, the regex class `\w`. -/
def isWordCh (c : Char) : Bool := isAlphaCh c || isDigitCh c || c == chUnd

/-- Whitespace, the regex class `\s` (space and the ASCII controls 9-13). -/
def isSpaceJS (c : Char) : Bool := c == ' ' || (9 ≤ c.toNat && c.toNat ≤ 13)

/-- A single or double quote, the class `['"]` of the source regexes. -/
def isQuoteCh (c : Char) : Bool := c == chSQ || c == chDQ

/-- The class `[^'"]` of the word-count regex. -/
def notQuoteCh (c : Char) : Bool := !(isQuoteCh c)

/-- The operator class `[\+\-\*\/]` of the arithmetic regex. -/
def isOpCh (c : Char) : Bool := c == '+' || c == '-' || c == '*' || c == '/'

/-- Value of a list of decimal digit characters, as read by `parseInt`. -/
def digitsToNat (ds : List Char) : Nat :=
  ds.foldl (fun a c => a * 10 + (c.toNat - 48)) 0

/-- Regular expressions as used by the source: literals, one-character
classes, greedy `*` and `+` over a class, greedy `?`, alternation,
sequencing and capturing groups.  This covers every construct appearing in
the four regexes of the module. -/
inductive Re : Type where
  | eps : Re
  | lit : List Char → Re
  | cls : (Char → Bool) → Re
  | star : (Char → Bool) → Re
  | plus : (Char → Bool) → Re
  | opt : Re → Re
  | alt : Re → Re → Re
  | seq : Re → Re → Re
  | group : Re → Re

/-- Case-insensitive literal match (the source regexes carry the `i` flag);
returns the remaining input on success. -/
def litMatch : List Char → List Char → Option (List Char)
  | [], s => some s
  | _ :: _, [] => none
  | p :: ps, c :: cs => if p.toLower == c.toLower then litMatch ps cs else none

/-- Remaining inputs after a greedy `p*`, longest consumption first. -/
def starRests (p : Char → Bool) : List Char → List (List Char)
  | [] => [[]]
  | c :: t => if p c then starRests p t ++ [c :: t] else [c :: t]

/-- Remaining inputs after a greedy `p+`, longest consumption first. -/
def plusRests (p : Char → Bool) : List Char → List (List Char)
  | [] => []
  | c :: t => if p c then starRests p t else []

/-- All ways a regex can match a prefix of the input, in the backtracking
engine's priority order; each outcome carries the captured groups (in group
order) and the unconsumed rest of the input. -/
def Re.matchAt : Re → List Char → List (List (List Char) × List Char)
  | .eps, s => [([], s)]
  | .lit l, s =>
      match litMatch l s with
      | some rest => [([], rest)]
      | none => []
  | .cls p, s =>
      match s with
      | [] => []
      | c :: t => if p c then [([], t)] else []
  | .star p, s => (starRests p s).map (fun r => ([], r))
  | .plus p, s => (plusRests p s).map (fun r => ([], r))
  | .opt r, s => Re.matchAt r s ++ [([], s)]
  | .alt r1 r2, s => Re.matchAt r1 s ++ Re.matchAt r2 s
  | .seq r1 r2, s =>
      (Re.matchAt r1 s).flatMap (fun pr =>
        (Re.matchAt r2 pr.2).map (fun qr => (pr.1 ++ qr.1, qr.2)))
  | .group r, s =>
      (Re.matchAt r s).map (fun pr =>
        ((s.take (s.length - pr.2.length)) :: pr.1, pr.2))

/-- `String.prototype.match` without the `g` flag: the captures of the
match at the leftmost possible position (the engine's first outcome there). -/
def findMatch (r : Re) : List Char → Option (List (List Char))
  | [] =>
      match Re.matchAt r [] with
      | pr :: _ => some pr.1
      | [] => none
  | c :: t =>
      match Re.matchAt r (c :: t) with
      | pr :: _ => some pr.1
      | [] => findMatch r t

/-- Sequence a list of regexes. -/
def reSeq (rs : List Re) : Re := rs.foldr Re.seq Re.eps

/-- The source regex
`/how many (?:of the )?(?:letter|character)s? ['"]?([a-zA-Z])['"]? (?:is|are) (?:there )?in (?:the word )?['"]?(\w+)['"]?/i`. -/
def letterCountRe : Re := reSeq
  [Re.lit "how many ".toList,
   Re.opt (Re.lit "of the ".toList),
   Re.alt (Re.lit "letter".toList) (Re.lit "character".toList),
   Re.opt (Re.lit "s".toList),
   Re.lit " ".toList,
   Re.opt (Re.cls isQuoteCh),
   Re.group (Re.cls isAlphaCh),
   Re.opt (Re.cls isQuoteCh),
   Re.lit " ".toList,
   Re.alt (Re.lit "is".toList) (Re.lit "are".toList),
   Re.lit " ".toList,
   Re.opt (Re.lit "there ".toList),
   Re.lit "in ".toList,
   Re.opt (Re.lit "the word ".toList),
   Re.opt (Re.cls isQuoteCh),
   Re.group (Re.plus isWordCh),
   Re.opt (Re.cls isQuoteCh)]

/-- The source regex `/how many words (?:is|are) (?:there )?in ['"]?([^'"]+)['"]?/i`. -/
def wordCountRe : Re := reSeq
  [Re.lit "how many words ".toList,
   Re.alt (Re.lit "is".toList) (Re.lit "are".toList),
   Re.lit " ".toList,
   Re.opt (Re.lit "there ".toList),
   Re.lit "in ".toList,
   Re.opt (Re.cls isQuoteCh),
   Re.group (Re.plus notQuoteCh),
   Re.opt (Re.cls isQuoteCh)]

/-- The source regex `/what is (\d+)\s*([\+\-\*\/])\s*(\d+)/i`. -/
def mathRe : Re := reSeq
  [Re.lit "what is ".toList,
   Re.group (Re.plus isDigitCh),
   Re.star isSpaceJS,
   Re.group (Re.cls isOpCh),
   Re.star isSpaceJS,
   Re.group (Re.plus isDigitCh)]

/-- The source regex `/\d+/` wrapped in a group so that the matched text
(`match[0]`) is returned as a capture. -/
def digitsRe : Re := Re.group (Re.plus isDigitCh)

/-- The source regex `-?\d+\.?\d*` (slash delimiters omitted), grouped to
expose the matched text. -/
def numRe : Re := Re.group (reSeq
  [Re.opt (Re.lit "-".toList),
   Re.plus isDigitCh,
   Re.opt (Re.lit ".".toList),
   Re.star isDigitCh])

/-- The source regex `/\{[\s\S]*\}/`, grouped to expose the matched text. -/
def jsonObjRe : Re := Re.group (reSeq
  [Re.cls (fun c => c == chOpen),
   Re.star (fun _ => true),
   Re.cls (fun c => c == chClose)])

/-- JavaScript numbers: exact rationals extended with the two signed
infinities and NaN.  Rational values stand for the real value a double
denotes; the claims only exercise ranges where doubles are exact. -/
inductive JSNum : Type where
  | fin : ℚ → JSNum
  | inf : Bool → JSNum
  | nan : JSNum
deriving DecidableEq

/-- Rational from a natural number, via `Rat.divInt` (which the kernel can
evaluate; the arithmetic operations of `Rat` itself are marked irreducible
in the ambient library, so the embedding routes every rational computation
through `Rat.divInt` and proves the operations equal to the usual ones). -/
def qOfNat (n : Nat) : ℚ := Rat.divInt n 1

/-- Kernel-evaluable negation on ℚ. -/
def qNeg (a : ℚ) : ℚ := Rat.divInt (-a.num) a.den

/-- Kernel-evaluable addition on ℚ. -/
def qAdd (a b : ℚ) : ℚ :=
  Rat.divInt (a.num * b.den + b.num * a.den) (a.den * b.den)

/-- Kernel-evaluable subtraction on ℚ. -/
def qSub (a b : ℚ) : ℚ :=
  Rat.divInt (a.num * b.den - b.num * a.den) (a.den * b.den)

/-- Kernel-evaluable multiplication on ℚ. -/
def qMul (a b : ℚ) : ℚ := Rat.divInt (a.num * b.num) (a.den * b.den)

/-- Kernel-evaluable division on ℚ (zero when the divisor is zero). -/
def qDiv (a b : ℚ) : ℚ := Rat.divInt (a.num * b.den) (a.den * b.num)

/-- Kernel-evaluable absolute value on ℚ. -/
def qAbs (a : ℚ) : ℚ := if a < 0 then qNeg a else a

/-- Kernel-evaluable power of ten. -/
def qPow10 (k : Nat) : ℚ := Rat.divInt (10 ^ k) 1

/-- JavaScript division of two finite numbers, as in `parseInt(a) / parseInt(b)`:
division by zero yields a signed infinity, `0 / 0` yields NaN. -/
def jsDivNum (a b : ℚ) : JSNum :=
  if b ≠ 0 then .fin (qDiv a b)
  else if a > 0 then .inf true
  else if a < 0 then .inf false
  else .nan

/-- JavaScript subtraction `x - y` where `x` is finite. -/
def jsSubFin (x : ℚ) : JSNum → JSNum
  | .fin c => .fin (qSub x c)
  | .inf b => .inf (!b)
  | .nan => .nan

/-- JavaScript `Math.abs`. -/
def jsAbsNum : JSNum → JSNum
  | .fin q => .fin (qAbs q)
  | .inf _ => .inf true
  | .nan => .nan

/-- JavaScript comparison `x < q` against a finite constant; false on NaN. -/
def jsLtQ (x : JSNum) (q : ℚ) : Bool :=
  match x with
  | .fin a => a < q
  | .inf b => !b
  | .nan => false

/-- JavaScript division by 100 as applied to the judge scores. -/
def jsDiv100 : JSNum → JSNum
  | .fin q => .fin (qDiv q (qOfNat 100))
  | .inf b => .inf b
  | .nan => .nan

/-- Decimal digit character for a value below 10. -/
def digitCh (n : Nat) : Char := Char.ofNat (48 + n)

/-- Fractional decimal digits of `num / den` (with `num < den`), produced by
long division until the remainder vanishes or the fuel runs out. -/
def fracDigits : Nat → Nat → Nat → List Char
  | 0, _, _ => []
  | _ + 1, 0, _ => []
  | fuel + 1, n, d => digitCh (n * 10 / d) :: fracDigits fuel (n * 10 % d) d

/-- Decimal string of a nonnegative rational. -/
def posRatToString (q : ℚ) : String :=
  let ip := q.num.toNat / q.den
  let rem := q.num.toNat % q.den
  if rem = 0 then Nat.repr ip
  else Nat.repr ip ++ "." ++ String.mk (fracDigits 30 rem q.den)

/-- JavaScript `Number.prototype.toString` on the values the module can
produce: `NaN`, signed infinities and finite values (exact for integers and
terminating decimals, which are the only finite values the theorems
inspect). -/
def jsNumToString : JSNum → String
  | .nan => "NaN"
  | .inf true => "Infinity"
  | .inf false => "-Infinity"
  | .fin q => if q < 0 then "-" ++ posRatToString (-q) else posRatToString q

/-- Membership of a JavaScript number in the closed interval [0,1]; false
for NaN and infinities (any comparison with NaN is false). -/
def jsNumInUnit : JSNum → Bool
  | .fin q => 0 ≤ q && q ≤ 1
  | _ => false

/-- `parseFloat` on text of the shape `-?\d+\.?\d*` (the only shape the
number-extraction regex can deliver). -/
def parseFloatAbs (t : List Char) : ℚ :=
  let intDigits := t.takeWhile isDigitCh
  let rest := t.dropWhile isDigitCh
  let fracDs :=
    match rest with
    | c :: r2 => if c == '.' then r2.takeWhile isDigitCh else []
    | [] => []
  qAdd (qOfNat (digitsToNat intDigits)) (qDiv (qOfNat (digitsToNat fracDs)) (qPow10 fracDs.length))

/-- `parseFloat`, handling the optional leading minus sign. -/
def parseFloatQ (t : List Char) : ℚ :=
  match t with
  | c :: rest => if c == '-' then qNeg (parseFloatAbs rest) else parseFloatAbs t
  | [] => 0

/-- Occurrences of a character in a list, as counted by
`word.match(new RegExp(letter, 'g')).length` for a one-letter pattern. -/
def countChar (c : Char) : List Char → Nat
  | [] => 0
  | d :: t => (if d == c then 1 else 0) + countChar c t

/-- `String.prototype.trim` on character lists. -/
def trimList (s : List Char) : List Char :=
  ((s.dropWhile isSpaceJS).reverse.dropWhile isSpaceJS).reverse

/-- `String.prototype.trim`. -/
def trimStr (s : String) : String := String.mk (trimList s.toList)

/-- Number of maximal runs of non-whitespace characters; the flag records
whether the previous character belonged to a run. -/
def countRunsAux : Bool → List Char → Nat
  | _, [] => 0
  | inRun, c :: t =>
      if isSpaceJS c then countRunsAux false t
      else (if inRun then 0 else 1) + countRunsAux true t

/-- Number of whitespace-separated words (maximal non-whitespace runs). -/
def countRuns (s : List Char) : Nat := countRunsAux false s

/-- Length of `phrase.trim().split(/\s+/)` in JavaScript: splitting the
empty string yields the one-element array `[""]`, otherwise one element per
non-whitespace run (the string being trimmed first). -/
def jsTrimSplitLen (s : List Char) : Nat :=
  let t := trimList s
  if t.isEmpty then 1 else countRuns t

/-- JSON values as produced by `JSON.parse`. -/
inductive JSValue : Type where
  | null : JSValue
  | bool : Bool → JSValue
  | num : ℚ → JSValue
  | str : String → JSValue
  | arr : List JSValue → JSValue
  | obj : List (String × JSValue) → JSValue

/-- JSON whitespace accepted by `JSON.parse` between tokens. -/
def isJsonWs (c : Char) : Bool :=
  c == ' ' || c.toNat == 9 || c.toNat == 10 || c.toNat == 13

/-- Drop JSON whitespace. -/
def skipWs (s : List Char) : List Char := s.dropWhile isJsonWs

/-- Hexadecimal digit value. -/
def hexVal (c : Char) : Option Nat :=
  if 48 ≤ c.toNat && c.toNat ≤ 57 then some (c.toNat - 48)
  else if 97 ≤ c.toNat && c.toNat ≤ 102 then some (c.toNat - 87)
  else if 65 ≤ c.toNat && c.toNat ≤ 70 then some (c.toNat - 55)
  else none

/-- Body of a JSON string literal after the opening quote: returns the
decoded characters and the input after the closing quote.  Raw control
characters are rejected, as by `JSON.parse`. -/
def parseJsonStr : List Char → Option (List Char × List Char)
  | [] => none
  | c :: t =>
      if c == chDQ then some ([], t)
      else if c == chBS then
        match t with
        | [] => none
        | e :: t2 =>
            if e == chDQ || e == chBS || e == '/' then
              (parseJsonStr t2).map (fun pr => (e :: pr.1, pr.2))
            else if e == 'b' then
              (parseJsonStr t2).map (fun pr => (Char.ofNat 8 :: pr.1, pr.2))
            else if e == 'f' then
              (parseJsonStr t2).map (fun pr => (Char.ofNat 12 :: pr.1, pr.2))
            else if e == 'n' then
              (parseJsonStr t2).map (fun pr => (Char.ofNat 10 :: pr.1, pr.2))
            else if e == 'r' then
              (parseJsonStr t2).map (fun pr => (Char.ofNat 13 :: pr.1, pr.2))
            else if e == 't' then
              (parseJsonStr t2).map (fun pr => (Char.ofNat 9 :: pr.1, pr.2))
            else if e == 'u' then
              match t2 with
              | a :: b :: c2 :: d :: t3 =>
                  match hexVal a, hexVal b, hexVal c2, hexVal d with
                  | some va, some vb, some vc, some vd =>
                      (parseJsonStr t3).map (fun pr =>
                        (Char.ofNat (va * 4096 + vb * 256 + vc * 16 + vd) :: pr.1, pr.2))
                  | _, _, _, _ => none
              | _ => none
            else none
      else if c.toNat < 32 then none
      else (parseJsonStr t).map (fun pr => (c :: pr.1, pr.2))

/-- JSON number grammar `-?(0|[1-9]\\d*)(\\.\\d+)?([eE][+-]?\\d+)?`; returns the
exact rational value and the rest of the input. -/
def parseJsonNum (s : List Char) : Option (ℚ × List Char) :=
  let neg : Bool := match s with
    | c :: _ => c == '-'
    | [] => false
  let s1 := match s with
    | c :: t => if c == '-' then t else s
    | [] => s
  let intDs := s1.takeWhile isDigitCh
  let s2 := s1.dropWhile isDigitCh
  if intDs.isEmpty then none
  else if intDs.length > 1 && intDs.headD '0' == '0' then none
  else
    let withFrac : Option (ℚ × List Char) :=
      match s2 with
      | c :: t =>
          if c == '.' then
            let fracDs := t.takeWhile isDigitCh
            if fracDs.isEmpty then none
            else some (qAdd (qOfNat (digitsToNat intDs))
              (qDiv (qOfNat (digitsToNat fracDs)) (qPow10 fracDs.length)),
              t.dropWhile isDigitCh)
          else some (qOfNat (digitsToNat intDs), s2)
      | [] => some (qOfNat (digitsToNat intDs), s2)
    match withFrac with
    | none => none
    | some (mant, s3) =>
        let signed : ℚ → ℚ := fun m => if neg then qNeg m else m
        match s3 with
        | c :: t =>
            if c == 'e' || c == 'E' then
              let esign : Bool := match t with
                | e :: _ => e == '-'
                | [] => false
              let t1 := match t with
                | e :: t2 => if e == '-' || e == '+' then t2 else t
                | [] => t
              let expDs := t1.takeWhile isDigitCh
              if expDs.isEmpty then none
              else
                let ev := digitsToNat expDs
                let scaled := if esign then qDiv mant (qPow10 ev) else qMul mant (qPow10 ev)
                some (signed scaled, t1.dropWhile isDigitCh)
            else some (signed mant, s3)
        | [] => some (signed mant, s3)

/-- The three states of the JSON parser: a value to parse, the members of
an object after its opening brace, or the elements of an array after its
opening bracket (with the members or elements parsed so far). -/
inductive PTask : Type where
  | val : List Char → PTask
  | members : List Char → List (String × JSValue) → PTask
  | elems : List Char → List JSValue → PTask

/-- JSON parser: structural recursion on the fuel (which exceeds the input
length at the top and strictly decreases only after at least one consumed
character, so well-formed inputs never exhaust it). -/
def parseJsonF : Nat → PTask → Option (JSValue × List Char)
  | 0, _ => none
  | fuel + 1, .val s =>
      (match skipWs s with
       | [] => none
       | c :: t =>
          if c == 'n' then
            match t with
            | u :: l1 :: l2 :: t2 =>
                if u == 'u' && l1 == 'l' && l2 == 'l' then some (.null, t2) else none
            | _ => none
          else if c == 't' then
            match t with
            | r :: u :: e :: t2 =>
                if r == 'r' && u == 'u' && e == 'e' then some (.bool true, t2) else none
            | _ => none
          else if c == 'f' then
            match t with
            | a :: l :: s2 :: e :: t2 =>
                if a == 'a' && l == 'l' && s2 == 's' && e == 'e' then
                  some (.bool false, t2)
                else none
            | _ => none
          else if c == chDQ then
            (parseJsonStr t).map (fun pr => (.str (String.mk pr.1), pr.2))
          else if c == chOpen then
            match skipWs t with
            | d :: _ =>
                if d == chClose then some (.obj [], (skipWs t).tail)
                else parseJsonF fuel (.members (skipWs t) [])
            | [] => none
          else if c == '[' then
            match skipWs t with
            | d :: _ =>
                if d == ']' then some (.arr [], (skipWs t).tail)
                else parseJsonF fuel (.elems (skipWs t) [])
            | [] => none
          else
            (parseJsonNum (c :: t)).map (fun pr => (.num pr.1, pr.2)))
  | fuel + 1, .members s acc =>
      (match skipWs s with
       | c :: t =>
          if c == chDQ then
            match parseJsonStr t with
            | some (key, t2) =>
                (match skipWs t2 with
                 | d :: t3 =>
                     if d == ':' then
                       match parseJsonF fuel (.val t3) with
                       | some (v, t4) =>
                           (match skipWs t4 with
                            | e :: t5 =>
                                if e == ',' then
                                  parseJsonF fuel
                                    (.members t5 (acc ++ [(String.mk key, v)]))
                                else if e == chClose then
                                  some (.obj (acc ++ [(String.mk key, v)]), t5)
                                else none
                            | [] => none)
                       | none => none
                     else none
                 | [] => none)
            | none => none
          else none
       | [] => none)
  | fuel + 1, .elems s acc =>
      (match parseJsonF fuel (.val s) with
       | some (v, t) =>
          (match skipWs t with
           | e :: t2 =>
               if e == ',' then parseJsonF fuel (.elems t2 (acc ++ [v]))
               else if e == ']' then some (.arr (acc ++ [v]), t2)
               else none
           | [] => none)
       | none => none)


/-- `JSON.parse`: parse one value and require only whitespace to remain. -/
def jsonParse (s : String) : Option JSValue :=
  match parseJsonF (s.toList.length + 2) (.val s.toList) with
  | some (v, rest) => if (skipWs rest).isEmpty then some v else none
  | none => none

/-- Property access `v[key]` on a parsed JSON value: `undefined` (`none`)
unless `v` is an object with the key; for duplicate keys `JSON.parse` keeps
the last occurrence. -/
def JSValue.getField (v : JSValue) (k : String) : Option JSValue :=
  match v with
  | .obj kvs => (kvs.reverse.find? (fun kv => kv.1 == k)).map Prod.snd
  | _ => none

mutual

/-- Stringification of an element inside `Array.prototype.join`:
`null` becomes the empty string, nested arrays are joined recursively. -/
def jsJoinElem : JSValue → String
  | .null => ""
  | .bool b => if b then "true" else "false"
  | .num q => jsNumToString (.fin q)
  | .str s => s
  | .arr xs => jsJoinList xs
  | .obj _ => "[object Object]"

/-- Comma-joined stringification of array elements. -/
def jsJoinList : List JSValue → String
  | [] => ""
  | [x] => jsJoinElem x
  | x :: y :: t => jsJoinElem x ++ "," ++ jsJoinList (y :: t)

end

/-- `ToNumber` on a trimmed non-empty numeric string: optional sign, then
`Infinity`, `ddd`, `ddd.ddd`, `.ddd`, with an optional exponent. -/
def strNumBody (t : List Char) : JSNum :=
  let intDs := t.takeWhile isDigitCh
  let s2 := t.dropWhile isDigitCh
  let fracPart : Option (ℚ × List Char) :=
    match s2 with
    | c :: r =>
        if c == '.' then
          let fracDs := r.takeWhile isDigitCh
          if intDs.isEmpty && fracDs.isEmpty then none
          else some (qAdd (qOfNat (digitsToNat intDs))
            (qDiv (qOfNat (digitsToNat fracDs)) (qPow10 fracDs.length)),
            r.dropWhile isDigitCh)
        else if intDs.isEmpty then none
        else some (qOfNat (digitsToNat intDs), s2)
    | [] => if intDs.isEmpty then none else some (qOfNat (digitsToNat intDs), s2)
  match fracPart with
  | none => .nan
  | some (mant, s3) =>
      match s3 with
      | [] => .fin mant
      | c :: r =>
          if c == 'e' || c == 'E' then
            let esign : Bool := match r with
              | e :: _ => e == '-'
              | [] => false
            let r1 := match r with
              | e :: r2 => if e == '-' || e == '+' then r2 else r
              | [] => r
            let expDs := r1.takeWhile isDigitCh
            if expDs.isEmpty || !(r1.dropWhile isDigitCh).isEmpty then .nan
            else
              let ev := digitsToNat expDs
              .fin (if esign then qDiv mant (qPow10 ev) else qMul mant (qPow10 ev))
          else .nan

/-- `ToNumber` applied to a string: trim, empty gives 0, otherwise an
optionally signed numeric literal or `Infinity`; anything else is NaN. -/
def strToNumber (s : String) : JSNum :=
  let t := trimList s.toList
  match t with
  | [] => .fin 0
  | c :: r =>
      let body := if c == '-' || c == '+' then r else t
      let neg := c == '-'
      let core : JSNum :=
        if body == "Infinity".toList then .inf true else strNumBody body
      match core, neg with
      | .fin q, true => .fin (qNeg q)
      | .fin q, false => .fin q
      | .inf b, true => .inf (!b)
      | .inf b, false => .inf b
      | .nan, _ => .nan

/-- JavaScript `ToNumber` on a parsed JSON value (the implicit coercion in
`scores.accuracy / 100`): arrays coerce through their joined string, plain
objects give NaN. -/
def jsToNumber : JSValue → JSNum
  | .null => .fin 0
  | .bool b => .fin (if b then 1 else 0)
  | .num q => .fin q
  | .str s => strToNumber s
  | .arr xs => strToNumber (jsJoinList xs)
  | .obj _ => .nan

/-- `ToNumber` where the value may be `undefined` (absent property). -/
def jsToNumberOpt : Option JSValue → JSNum
  | none => .nan
  | some v => jsToNumber v

/-- The two prompt classifications. -/
inductive PType : Type where
  | objective : PType
  | subjective : PType
deriving DecidableEq

/-- Result of `analyzePrompt`: classification, the expected answer rendered
with `toString`, and the scoring closure (absent on the subjective path). -/
structure PromptAnalysis where
  type : PType
  expectedAnswer : Option String
  evaluationFunction : Option (String → ℚ)

/-- The binary scoring closure of the two counting templates: 1 exactly
when the first run of digits in the response reads as the expected count. -/
def countScoring (correctCount : Nat) : String → ℚ := fun response =>
  match findMatch digitsRe response.toList with
  | some (ds :: _) => if digitsToNat ds == correctCount then 1 else 0
  | _ => 0

/-- The classification built for a letter-count match (captures: letter,
word): the ground truth counts case-insensitive occurrences. -/
def letterAnalysis (lcs wcs : List Char) : PromptAnalysis :=
  let correctCount := countChar (lcs.headD ' ').toLower (wcs.map Char.toLower)
  { type := .objective
    expectedAnswer := some (Nat.repr correctCount)
    evaluationFunction := some (countScoring correctCount) }

/-- The classification built for a word-count match (capture: phrase): the
ground truth is `phrase.trim().split(/\\s+/).length`. -/
def wordAnalysis (phrase : List Char) : PromptAnalysis :=
  let correctCount := jsTrimSplitLen phrase
  { type := .objective
    expectedAnswer := some (Nat.repr correctCount)
    evaluationFunction := some (countScoring correctCount) }

/-- The `switch (operator)` of the arithmetic branch. -/
def mathCorrectAnswer (opc : List Char) (a b : Nat) : JSNum :=
  match opc with
  | o :: _ =>
      if o == '+' then .fin (qAdd (qOfNat a) (qOfNat b))
      else if o == '-' then .fin (qSub (qOfNat a) (qOfNat b))
      else if o == '*' then .fin (qMul (qOfNat a) (qOfNat b))
      else if o == '/' then jsDivNum (qOfNat a) (qOfNat b)
      else .fin 0
  | [] => .fin 0

/-- The tolerance scoring closure of the arithmetic template: 1 exactly
when the first extracted number is within 0.01 of the expected answer. -/
def mathScoring (correctAnswer : JSNum) : String → ℚ := fun response =>
  match findMatch numRe response.toList with
  | some (t :: _) =>
      if jsLtQ (jsAbsNum (jsSubFin (parseFloatQ t) correctAnswer))
          (Rat.divInt 1 100)
      then 1 else 0
  | _ => 0

/-- The classification built for an arithmetic match. -/
def mathAnalysis (n1 opc n2 : List Char) : PromptAnalysis :=
  let correctAnswer := mathCorrectAnswer opc (digitsToNat n1) (digitsToNat n2)
  { type := .objective
    expectedAnswer := some (jsNumToString correctAnswer)
    evaluationFunction := some (mathScoring correctAnswer) }

/-- Embedding of the source function `analyzePrompt`: the three templates
are tried in order (letter count, word count, arithmetic); each match
computes the ground truth and returns a binary scoring closure; anything
else is subjective. -/
def analyzePrompt (prompt : String) : PromptAnalysis :=
  match findMatch letterCountRe prompt.toList with
  | some (letterCs :: wordCs :: _) => letterAnalysis letterCs wordCs
  | _ =>
  match findMatch wordCountRe prompt.toList with
  | some (phrase :: _) => wordAnalysis phrase
  | _ =>
  match findMatch mathRe prompt.toList with
  | some (n1 :: opc :: n2 :: _) => mathAnalysis n1 opc n2
  | _ => { type := .subjective, expectedAnswer := none, evaluationFunction := none }

/-- Details attached to a rubric result (mirrors the `details` field). -/
inductive RubricDetails : Type where
  | nullD : RubricDetails
  | objectiveD : Option String → String → RubricDetails
  | subjectiveD : JSValue → RubricDetails

/-- Result of `evaluateWithRubric`. -/
structure RubricScores where
  accuracy : JSNum
  relevancy : JSNum
  details : RubricDetails

/-- The neutral default returned on any judge failure. -/
def neutralScores : RubricScores :=
  { accuracy := .fin (1 / 2), relevancy := .fin (1 / 2), details := .nullD }

/-- The judge call outcome: an exception, or the content reached by
`evaluation.choices[0]?.message?.content` (which may be absent). -/
def JudgeOutcome : Type := Except Unit (Option String)

/-- Extraction of the judge text `content?.trim() || ''`. -/
def judgeText : Option String → String
  | none => ""
  | some c => trimStr c

/-- `content.match(/\{[\s\S]*\}/)` reduced to the matched text. -/
def extractJsonText (content : String) : Option String :=
  match findMatch jsonObjRe content.toList with
  | some (m :: _) => some (String.mk m)
  | _ => none

/-- The parsed judge scores: `none` when the call failed, the brace regex
found nothing, or `JSON.parse` threw. -/
def parsedJudgeScores (judge : Except Unit (Option String)) : Option JSValue :=
  match judge with
  | .error _ => none
  | .ok contentOpt =>
      match extractJsonText (judgeText contentOpt) with
      | none => none
      | some txt => jsonParse txt

/-- The subjective branch of `evaluateWithRubric`: on any failure the
neutral default, otherwise the parsed scores with the `accuracy` and
`relevancy` properties coerced to numbers and divided by 100. -/
def subjectiveScores (judge : Except Unit (Option String)) : RubricScores :=
  match parsedJudgeScores judge with
  | none => neutralScores
  | some scores =>
      { accuracy := jsDiv100 (jsToNumberOpt (scores.getField "accuracy"))
        relevancy := jsDiv100 (jsToNumberOpt (scores.getField "relevancy"))
        details := .subjectiveD scores }

/-- Embedding of the source function `evaluateWithRubric`: objective
prompts are scored by the closure (relevancy 1 exactly when the response
contains a digit), all other prompts by the judge call. -/
def evaluateWithRubric (response prompt : String)
    (judge : Except Unit (Option String)) : RubricScores :=
  let pa := analyzePrompt prompt
  match pa.type, pa.evaluationFunction with
  | .objective, some f =>
      { accuracy := .fin (f response)
        relevancy := .fin (if (findMatch digitsRe response.toList).isSome then 1 else 0)
        details := .objectiveD pa.expectedAnswer response }
  | _, _ => subjectiveScores judge

/-- Per-model evaluation metrics (accuracy and relevancy may be NaN when a
malformed judge object is divided by 100). -/
structure EvaluationMetrics where
  accuracy : JSNum
  relevancy : JSNum
  responseTime : ℚ
  cost : ℚ
  tokenCount : Nat
deriving DecidableEq

/-- One model's result. -/
structure LLMResponse where
  model : String
  response : String
  metrics : EvaluationMetrics
  error : Option String
deriving DecidableEq

/-- The successful part of a chat-completion call:
`choices[0]?.message?.content` and `usage?.total_tokens`. -/
structure ApiSuccess where
  content : Option String
  totalTokens : Option Nat

/-- Everything one `getGroqResponse` call observes from the outside world:
the completion outcome (an exception carries `error.message` when the
thrown value is an `Error` instance, otherwise `none`), the measured
latency, and the judge-call outcome used by the rubric evaluator. -/
structure CallEnv where
  result : Except (Option String) ApiSuccess
  responseTime : ℚ
  judge : Except Unit (Option String)

/-- The flat cost-per-1000-tokens table (`switch (model)` of the source). -/
def costPer1kTokens (model : String) : ℚ :=
  if model == "mixtral-8x7b-32768" then Rat.divInt 27 1000
  else if model == "llama-3.3-70b-versatile" then Rat.divInt 7 10000
  else if model == "gemma2-9b-it" then Rat.divInt 1 10000
  else if model == "llama-3.1-8b-instant" then Rat.divInt 1 10000
  else Rat.divInt 1 10000

/-- Embedding of `getGroqResponse`: the whole body is wrapped in a
try/catch, so the function always returns a result; on an exception the
metrics are zeroed and the message (or `'Unknown error'`) is attached. -/
def getGroqResponse (prompt model : String) (env : CallEnv) : LLMResponse :=
  match env.result with
  | .ok s =>
      let response := s.content.getD ""
      let tokenCount := s.totalTokens.getD 0
      let cost := qMul (qDiv (qOfNat tokenCount) (qOfNat 1000)) (costPer1kTokens model)
      let ev := evaluateWithRubric response prompt env.judge
      { model := model
        response := response
        metrics :=
          { accuracy := ev.accuracy
            relevancy := ev.relevancy
            responseTime := env.responseTime
            cost := cost
            tokenCount := tokenCount }
        error := none }
  | .error eOpt =>
      { model := model
        response := ""
        metrics :=
          { accuracy := .fin 0
            relevancy := .fin 0
            responseTime := env.responseTime
            cost := 0
            tokenCount := 0 }
        error := some (eOpt.getD "Unknown error") }

/-- The fixed list of configured model identifiers. -/
def models : List String :=
  ["mixtral-8x7b-32768", "gemma2-9b-it", "llama-3.3-70b-versatile",
   "llama-3.1-8b-instant"]

/-- Embedding of `evaluatePrompt`: one `getGroqResponse` per configured
model (`Promise.all` over the map); since `getGroqResponse` never throws,
the batch always resolves with one result per model. -/
def evaluatePrompt (prompt : String) (envs : String → CallEnv) : List LLMResponse :=
  models.map (fun m => getGroqResponse prompt m (envs m))

/-- Specification-side reading of the exact arithmetic result `A op B`
(stated with the field operations of ℚ; compared against the value the
classifier computes). -/
def exactArith (a : ℚ) (op : Char) (b : ℚ) : ℚ :=
  if op = '+' then a + b
  else if op = '-' then a - b
  else if op = '*' then a * b
  else if op = '/' then a / b
  else 0

/-- The first number the scoring closure extracts from a response
(`response.match(` the regex `-?\\d+\\.?\\d*` `)` then `parseFloat`). -/
def firstNumber (response : String) : Option ℚ :=
  match findMatch numRe response.toList with
  | some (t :: _) => some (parseFloatQ t)
  | _ => none

/-- The first integer the count-scoring closures extract from a response
(`response.match(` the regex `\\d+` `)` then `parseInt`). -/
def firstInt (response : String) : Option Nat :=
  match findMatch digitsRe response.toList with
  | some (ds :: _) => some (digitsToNat ds)
  | _ => none

/-- Specification-side number of whitespace-separated words of a phrase
(maximal runs of non-whitespace characters). -/
def specWordCount (phrase : List Char) : Nat := countRuns phrase

/-- Specification-side number of case-insensitive occurrences of a letter
in a word. -/
def specLetterCount (letter : Char) (word : List Char) : Nat :=
  countChar letter.toLower (word.map Char.toLower)

/-- Index of the first opening brace. -/
def firstOpenIdx : List Char → Option Nat
  | [] => none
  | c :: t => if c == chOpen then some 0 else (firstOpenIdx t).map (· + 1)

/-- Index of the last closing brace. -/
def lastCloseIdx : List Char → Option Nat
  | [] => none
  | c :: t =>
      match lastCloseIdx t with
      | some i => some (i + 1)
      | none => if c == chClose then some 0 else none

/-- The substring from the first opening brace through the last closing
brace, when the former precedes the latter. -/
def braceSpan (s : List Char) : Option (List Char) :=
  match firstOpenIdx s, lastCloseIdx s with
  | some i, some j => if i < j then some ((s.drop i).take (j - i + 1)) else none
  | _, _ => none

/-- The shortest prefix of `s` that parses as a JSON object, if any. -/
def shortestJsonPre (s : List Char) : Option String :=
  (List.range (s.length + 1)).findSome? (fun k =>
    match jsonParse (String.mk (s.take k)) with
    | some (JSValue.obj _) => some (String.mk (s.take k))
    | _ => none)

/-- Specification-side reading of the first JSON object found in a text:
the earliest-starting (and there shortest) substring that `JSON.parse`
accepts as an object. -/
def firstJsonObjectSpec : List Char → Option String
  | [] => none
  | c :: t =>
      match shortestJsonPre (c :: t) with
      | some txt => some txt
      | none => firstJsonObjectSpec t

/-- The shape of every result `evaluatePrompt` returns for its model: on a
successful call no error and the returned content (or the empty string) as
response; on a failed call an empty response and the thrown message (or
`'Unknown error'`) as error. -/
def resultInvariant (envs : String → CallEnv) (r : LLMResponse) : Prop :=
  (∃ s, (envs r.model).result = .ok s ∧ r.error = none
      ∧ r.response = s.content.getD "")
  ∨ (∃ e, (envs r.model).result = .error e ∧ r.response = ""
      ∧ r.error = some (e.getD "Unknown error"))


/-- The outcomes the engine enumerates for `[\\s\\S]*\\}` on an input: one
per closing brace, latest brace first (greedy star, longest first). -/
def closeOutcomes : List Char → List (List (List Char) × List Char)
  | [] => []
  | c :: t => closeOutcomes t ++ (if c == chClose then [(([] : List (List Char)), t)] else [])

/-! Bridge lemmas: the kernel-evaluable rational helpers agree with the
field operations of ℚ. -/

theorem qOfNat_eq (n : Nat) : qOfNat n = (n : ℚ) := by
  simp [qOfNat, Rat.divInt_eq_div]

theorem qNeg_eq (a : ℚ) : qNeg a = -a := by
  rw [qNeg, Rat.divInt_eq_div]
  push_cast
  rw [neg_div, Rat.num_div_den]

theorem qAdd_eq (a b : ℚ) : qAdd a b = a + b := by
  have ha : ((a.den : ℚ)) ≠ 0 := Nat.cast_ne_zero.mpr (Rat.den_ne_zero a)
  have hb : ((b.den : ℚ)) ≠ 0 := Nat.cast_ne_zero.mpr (Rat.den_ne_zero b)
  rw [qAdd, Rat.divInt_eq_div]
  conv_rhs => rw [← Rat.num_div_den a, ← Rat.num_div_den b]
  rw [div_add_div _ _ ha hb]
  push_cast
  ring_nf

theorem qSub_eq (a b : ℚ) : qSub a b = a - b := by
  have ha : ((a.den : ℚ)) ≠ 0 := Nat.cast_ne_zero.mpr (Rat.den_ne_zero a)
  have hb : ((b.den : ℚ)) ≠ 0 := Nat.cast_ne_zero.mpr (Rat.den_ne_zero b)
  rw [qSub, Rat.divInt_eq_div]
  conv_rhs => rw [← Rat.num_div_den a, ← Rat.num_div_den b]
  rw [div_sub_div _ _ ha hb]
  push_cast
  ring_nf

theorem qMul_eq (a b : ℚ) : qMul a b = a * b := by
  rw [qMul, Rat.divInt_eq_div]
  conv_rhs => rw [← Rat.num_div_den a, ← Rat.num_div_den b]
  rw [div_mul_div_comm]
  push_cast
  ring_nf

theorem qDiv_eq (a b : ℚ) : qDiv a b = a / b := by
  by_cases hb : b = 0
  · subst hb
    simp [qDiv]
  · have ha : ((a.den : ℚ)) ≠ 0 := Nat.cast_ne_zero.mpr (Rat.den_ne_zero a)
    have hbd : ((b.den : ℚ)) ≠ 0 := Nat.cast_ne_zero.mpr (Rat.den_ne_zero b)
    have hbn : ((b.num : ℚ)) ≠ 0 := by
      exact_mod_cast Rat.num_ne_zero.mpr hb
    rw [qDiv, Rat.divInt_eq_div]
    conv_rhs => rw [← Rat.num_div_den a, ← Rat.num_div_den b]
    push_cast
    field_simp

theorem qAbs_eq (a : ℚ) : qAbs a = |a| := by
  rw [qAbs]
  split_ifs with h
  · rw [qNeg_eq, abs_of_neg h]
  · rw [abs_of_nonneg (le_of_not_lt h)]

theorem qPow10_eq (k : Nat) : qPow10 k = (10 : ℚ) ^ k := by
  rw [qPow10, Rat.divInt_eq_div]
  push_cast
  simp

theorem tol_eq : Rat.divInt 1 100 = (1 / 100 : ℚ) := by
  rw [Rat.divInt_eq_div]
  norm_num


/-! Dispatcher claims. -/

/-- C9: the list returned by `evaluatePrompt` preserves the configured
model order: the result models are exactly the fixed identifier list, on
both the success and the error path. -/
theorem claim_C9 (prompt : String) (envs : String → CallEnv) :
    (evaluatePrompt prompt envs).map LLMResponse.model
      = ["mixtral-8x7b-32768", "gemma2-9b-it", "llama-3.3-70b-versatile",
         "llama-3.1-8b-instant"] := by
  have h : ∀ m, (getGroqResponse prompt m (envs m)).model = m := by
    intro m
    cases henv : (envs m).result <;> simp [getGroqResponse, henv]
  simp [evaluatePrompt, models, h]

/-- C7: on every successful call the reported cost is the token count
divided by 1000 times the model's flat rate, and the rate table is 0.027
for mixtral-8x7b-32768, 0.0007 for llama-3.3-70b-versatile, 0.0001 for
gemma2-9b-it, llama-3.1-8b-instant and any other identifier. -/
theorem claim_C7 (prompt model : String) (env : CallEnv) (s : ApiSuccess)
    (h : env.result = .ok s) :
    (getGroqResponse prompt model env).metrics.cost
        = ((getGroqResponse prompt model env).metrics.tokenCount : ℚ) / 1000
          * costPer1kTokens model
      ∧ costPer1kTokens "mixtral-8x7b-32768" = (27 : ℚ) / 1000
      ∧ costPer1kTokens "llama-3.3-70b-versatile" = (7 : ℚ) / 10000
      ∧ costPer1kTokens "gemma2-9b-it" = (1 : ℚ) / 10000
      ∧ costPer1kTokens "llama-3.1-8b-instant" = (1 : ℚ) / 10000
      ∧ (model ∉ ["mixtral-8x7b-32768", "llama-3.3-70b-versatile",
            "gemma2-9b-it", "llama-3.1-8b-instant"]
          → costPer1kTokens model = (1 : ℚ) / 10000) := by
  refine ⟨?_, ?_, ?_, ?_, ?_, ?_⟩
  · simp only [getGroqResponse, h]
    rw [qMul_eq, qDiv_eq, qOfNat_eq, qOfNat_eq]
    norm_num
  · show Rat.divInt 27 1000 = (27 : ℚ) / 1000
    rw [Rat.divInt_eq_div]
    norm_num
  · show Rat.divInt 7 10000 = (7 : ℚ) / 10000
    rw [Rat.divInt_eq_div]
    norm_num
  · show Rat.divInt 1 10000 = (1 : ℚ) / 10000
    rw [Rat.divInt_eq_div]
    norm_num
  · show Rat.divInt 1 10000 = (1 : ℚ) / 10000
    rw [Rat.divInt_eq_div]
    norm_num
  · intro hm
    simp only [List.mem_cons, List.not_mem_nil, or_false, not_or] at hm
    obtain ⟨h1, h2, h3, h4⟩ := hm
    simp only [costPer1kTokens, beq_iff_eq, h1, h2, h3, h4, if_false]
    rw [Rat.divInt_eq_div]
    norm_num

/-- Witness for C7 at a concrete successful call. -/
theorem claim_C7_witness :
    ({ result := .ok { content := some "hello", totalTokens := some 500 },
       responseTime := 1, judge := .error () } : CallEnv).result
        = .ok { content := some "hello", totalTokens := some 500 }
    ∧ (getGroqResponse "what is 3 + 4" "gemma2-9b-it"
        { result := .ok { content := some "hello", totalTokens := some 500 },
          responseTime := 1, judge := .error () }).metrics.cost
        = ((getGroqResponse "what is 3 + 4" "gemma2-9b-it"
            { result := .ok { content := some "hello", totalTokens := some 500 },
              responseTime := 1, judge := .error () }).metrics.tokenCount : ℚ)
          / 1000 * costPer1kTokens "gemma2-9b-it" :=
  ⟨rfl, (claim_C7 "what is 3 + 4" "gemma2-9b-it" _ _ rfl).1⟩

/-- C8: when the completion call throws, the result has empty response, the
error message set (or the fallback text), and all metrics except the
response time exactly zero. -/
theorem claim_C8 (prompt model : String) (env : CallEnv) (e : Option String)
    (h : env.result = .error e) :
    (getGroqResponse prompt model env).response = ""
      ∧ (getGroqResponse prompt model env).error = some (e.getD "Unknown error")
      ∧ (getGroqResponse prompt model env).metrics.accuracy = .fin 0
      ∧ (getGroqResponse prompt model env).metrics.relevancy = .fin 0
      ∧ (getGroqResponse prompt model env).metrics.cost = 0
      ∧ (getGroqResponse prompt model env).metrics.tokenCount = 0 := by
  simp [getGroqResponse, h]

/-- Witness for C8 at a concrete failing call. -/
theorem claim_C8_witness :
    ({ result := .error (some "boom"), responseTime := 1,
       judge := .error () } : CallEnv).result = .error (some "boom")
    ∧ (getGroqResponse "hi" "gemma2-9b-it"
        { result := .error (some "boom"), responseTime := 1,
          judge := .error () }).error = some "boom" :=
  ⟨rfl, (claim_C8 "hi" "gemma2-9b-it" _ (some "boom") rfl).2.1⟩

/-- C1 counterexample: a successful call that returns no content yields a
result whose response is the empty string and whose error is absent, so a
result need not carry a non-empty response or a non-empty error. -/
theorem claim_C1_counterexample :
    ∃ r ∈ evaluatePrompt "hi"
        (fun _ => { result := .ok { content := none, totalTokens := none },
                    responseTime := 0, judge := .error () }),
      r.response = "" ∧ r.error = none := by decide

/-- C1 (amended): a batch always resolves with exactly one result per
configured model, in order; each result either comes from a successful call
(no error, response the returned content, possibly empty) or from a failed
call (empty response, error set to the thrown message or the fallback
text). -/
theorem claim_C1_amended (prompt : String) (envs : String → CallEnv) :
    (evaluatePrompt prompt envs).length = 4
      ∧ ∀ r ∈ evaluatePrompt prompt envs, resultInvariant envs r := by
  constructor
  · simp [evaluatePrompt, models]
  · intro r hr
    obtain ⟨m, hm, hr2⟩ := List.mem_map.mp hr
    subst hr2
    cases henv : (envs m).result with
    | ok s =>
        left
        exact ⟨s, by simp [getGroqResponse, henv], by simp [getGroqResponse, henv],
          by simp [getGroqResponse, henv]⟩
    | error e =>
        right
        exact ⟨e, by simp [getGroqResponse, henv], by simp [getGroqResponse, henv],
          by simp [getGroqResponse, henv]⟩

/-- Witness for C1 (amended) at a concrete environment and result. -/
theorem claim_C1_amended_witness :
    (evaluatePrompt "hi"
        (fun _ => { result := .error (some "boom"), responseTime := 1,
                    judge := .error () })).length = 4
    ∧ resultInvariant
        (fun _ => { result := .error (some "boom"), responseTime := 1,
                    judge := .error () })
        (getGroqResponse "hi" "mixtral-8x7b-32768"
          { result := .error (some "boom"), responseTime := 1,
            judge := .error () }) :=
  ⟨(claim_C1_amended "hi" _).1, (claim_C1_amended "hi" _).2 _ (by decide)⟩


/-! Helper lemmas about word counting and the classifier. -/

theorem countRunsAux_all_space (ss : List Char)
    (h : ∀ c ∈ ss, isSpaceJS c = true) (b : Bool) : countRunsAux b ss = 0 := by
  induction ss generalizing b with
  | nil => rfl
  | cons c t ih =>
      have hc := h c (by simp)
      simp only [countRunsAux, hc, if_true]
      exact ih (fun d hd => h d (by simp [hd])) false

theorem countRunsAux_append_space (s ss : List Char)
    (h : ∀ c ∈ ss, isSpaceJS c = true) (b : Bool) :
    countRunsAux b (s ++ ss) = countRunsAux b s := by
  induction s generalizing b with
  | nil => simpa [countRunsAux] using countRunsAux_all_space ss h b
  | cons c t ih =>
      by_cases hc : isSpaceJS c = true
      · simp [countRunsAux, hc, ih]
      · simp only [Bool.not_eq_true] at hc
        simp [countRunsAux, hc, ih]

theorem countRuns_dropWhile (s : List Char) :
    countRuns (s.dropWhile isSpaceJS) = countRuns s := by
  induction s with
  | nil => rfl
  | cons c t ih =>
      by_cases hc : isSpaceJS c = true
      · simpa [List.dropWhile_cons, hc, countRuns, countRunsAux] using ih
      · simp only [Bool.not_eq_true] at hc
        simp [List.dropWhile_cons, hc]

theorem countRuns_trimList (s : List Char) :
    countRuns (trimList s) = countRuns s := by
  have h1 : countRuns (s.dropWhile isSpaceJS) = countRuns s := countRuns_dropWhile s
  have hdecomp : s.dropWhile isSpaceJS
      = trimList s
        ++ ((s.dropWhile isSpaceJS).reverse.takeWhile isSpaceJS).reverse := by
    conv_lhs =>
      rw [← List.reverse_reverse (s.dropWhile isSpaceJS),
        ← List.takeWhile_append_dropWhile (p := isSpaceJS)
          (l := (s.dropWhile isSpaceJS).reverse),
        List.reverse_append]
    rfl
  have hsp : ∀ c ∈ ((s.dropWhile isSpaceJS).reverse.takeWhile isSpaceJS).reverse,
      isSpaceJS c = true := by
    intro c hc
    rw [List.mem_reverse] at hc
    exact List.mem_takeWhile_imp hc
  calc countRuns (trimList s)
      = countRunsAux false (trimList s
          ++ ((s.dropWhile isSpaceJS).reverse.takeWhile isSpaceJS).reverse) :=
        (countRunsAux_append_space _ _ hsp false).symm
    _ = countRuns s := by rw [← hdecomp]; exact h1

theorem countRuns_eq_zero_iff (s : List Char) :
    countRuns s = 0 ↔ ∀ c ∈ s, isSpaceJS c = true := by
  induction s with
  | nil => simp [countRuns, countRunsAux]
  | cons c t ih =>
      by_cases hc : isSpaceJS c = true
      · simp only [countRuns, countRunsAux, hc, if_true] at ih ⊢
        simp [hc, ih]
      · simp only [Bool.not_eq_true] at hc
        simp [countRuns, countRunsAux, hc]

theorem trimList_eq_nil_iff (s : List Char) :
    trimList s = [] ↔ ∀ c ∈ s, isSpaceJS c = true := by
  constructor
  · intro h
    have h2 := countRuns_trimList s
    rw [h] at h2
    exact (countRuns_eq_zero_iff s).mp h2.symm
  · intro h
    rw [trimList, List.dropWhile_eq_nil_iff.mpr h]
    rfl

theorem analyzePrompt_letter (p : String) (lcs wcs : List Char)
    (rest : List (List Char))
    (hl : findMatch letterCountRe p.toList = some (lcs :: wcs :: rest)) :
    analyzePrompt p = letterAnalysis lcs wcs := by
  simp only [analyzePrompt, hl]

theorem analyzePrompt_word (p : String) (phrase : List Char)
    (rest : List (List Char))
    (hl : findMatch letterCountRe p.toList = none)
    (hw : findMatch wordCountRe p.toList = some (phrase :: rest)) :
    analyzePrompt p = wordAnalysis phrase := by
  simp only [analyzePrompt, hl, hw]

theorem analyzePrompt_math (p : String) (n1 opc n2 : List Char)
    (rest : List (List Char))
    (hl : findMatch letterCountRe p.toList = none)
    (hw : findMatch wordCountRe p.toList = none)
    (hm : findMatch mathRe p.toList = some (n1 :: opc :: n2 :: rest)) :
    analyzePrompt p = mathAnalysis n1 opc n2 := by
  simp only [analyzePrompt, hl, hw, hm]

theorem analyzePrompt_subjective (p : String)
    (hl : findMatch letterCountRe p.toList = none)
    (hw : findMatch wordCountRe p.toList = none)
    (hm : findMatch mathRe p.toList = none) :
    analyzePrompt p =
      { type := .subjective, expectedAnswer := none,
        evaluationFunction := none } := by
  simp only [analyzePrompt, hl, hw, hm]


theorem countScoring_cases (cnt : Nat) (response : String) :
    (countScoring cnt response = 1 ∨ countScoring cnt response = 0)
    ∧ (countScoring cnt response = 1 ↔ firstInt response = some cnt) := by
  unfold countScoring firstInt
  cases h : findMatch digitsRe response.toList with
  | none => simp
  | some caps =>
      cases caps with
      | nil => simp
      | cons ds rest =>
          by_cases hd : digitsToNat ds = cnt
          · simp [hd]
          · simp [hd]

theorem mathScoring_fin (c : ℚ) (response : String) :
    (mathScoring (.fin c) response = 1 ∨ mathScoring (.fin c) response = 0)
    ∧ (mathScoring (.fin c) response = 1
        ↔ ∃ q, firstNumber response = some q ∧ |q - c| < 1 / 100) := by
  unfold mathScoring firstNumber
  cases h : findMatch numRe response.toList with
  | none => simp
  | some caps =>
      cases caps with
      | nil => simp
      | cons t rest =>
          simp only [jsSubFin, jsAbsNum, jsLtQ, qAbs_eq, qSub_eq, tol_eq]
          by_cases hlt : |parseFloatQ t - c| < 1 / 100
          · simp [hlt]
            exact lt_or_le _ _
          · simp [hlt]
            exact lt_or_le _ _

theorem mathScoring_notFin (x : JSNum) (response : String)
    (h : (∃ b, x = .inf b) ∨ x = .nan) :
    mathScoring x response = 0 := by
  unfold mathScoring
  cases hm : findMatch numRe response.toList with
  | none => rfl
  | some caps =>
      cases caps with
      | nil => rfl
      | cons t rest =>
          rcases h with ⟨b, hb⟩ | hb <;> subst hb <;>
            simp [jsSubFin, jsAbsNum, jsLtQ]

/-! Classifier claims. -/

/-- C3 counterexample: a prompt that matches the arithmetic template but
also the word-count template (which is tried first) is classified as a word
count, so its expected answer is not the arithmetic result and its scoring
closure returns 0 on a response within the 0.01 tolerance. -/
theorem claim_C3_counterexample :
    (findMatch mathRe "how many words are there in \"what is 2 + 2\"".toList).isSome
      = true
    ∧ (analyzePrompt "how many words are there in \"what is 2 + 2\"").expectedAnswer
      = some "5"
    ∧ exactArith 2 '+' 2 = 4
    ∧ some "5" ≠ some (jsNumToString (.fin (4 : ℚ)))
    ∧ Option.map (fun f => f "4")
        (analyzePrompt "how many words are there in \"what is 2 + 2\"").evaluationFunction
      = some 0
    ∧ |(4 : ℚ) - 4| < 1 / 100 := by
  refine ⟨by decide, by decide, ?_, by decide, by decide, by norm_num⟩
  norm_num [exactArith]

/-- C3 (amended): for every prompt whose first matching template is the
arithmetic one (neither count template matches, as those are tried first),
with a nonzero divisor when the operator is division, the expected answer
is the exact arithmetic result and the scoring closure returns 1 exactly
when the first extracted number is within 0.01 of it, else 0. -/
theorem claim_C3_amended (p : String) (n1 n2 : List Char) (op : Char)
    (hl : findMatch letterCountRe p.toList = none)
    (hw : findMatch wordCountRe p.toList = none)
    (hm : findMatch mathRe p.toList = some [n1, [op], n2])
    (hop : op = '+' ∨ op = '-' ∨ op = '*' ∨ op = '/')
    (hdiv : op = '/' → digitsToNat n2 ≠ 0) :
    (analyzePrompt p).type = .objective
    ∧ (analyzePrompt p).expectedAnswer
        = some (jsNumToString (.fin
            (exactArith (digitsToNat n1) op (digitsToNat n2))))
    ∧ ∃ f, (analyzePrompt p).evaluationFunction = some f
        ∧ ∀ response,
            (f response = 1 ∨ f response = 0)
            ∧ (f response = 1
                ↔ ∃ q, firstNumber response = some q
                    ∧ |q - exactArith (digitsToNat n1) op (digitsToNat n2)|
                        < 1 / 100) := by
  have hred := analyzePrompt_math p n1 [op] n2 [] hl hw hm
  have hcorr : mathCorrectAnswer [op] (digitsToNat n1) (digitsToNat n2)
      = .fin (exactArith (digitsToNat n1) op (digitsToNat n2)) := by
    rcases hop with h | h | h | h <;> subst h
    · have h0 : mathCorrectAnswer ['+'] (digitsToNat n1) (digitsToNat n2)
          = .fin (qAdd (qOfNat (digitsToNat n1)) (qOfNat (digitsToNat n2))) := rfl
      rw [h0, qAdd_eq, qOfNat_eq, qOfNat_eq]
      simp [exactArith]
    · have h0 : mathCorrectAnswer ['-'] (digitsToNat n1) (digitsToNat n2)
          = .fin (qSub (qOfNat (digitsToNat n1)) (qOfNat (digitsToNat n2))) := rfl
      rw [h0, qSub_eq, qOfNat_eq, qOfNat_eq]
      simp [exactArith]
    · have h0 : mathCorrectAnswer ['*'] (digitsToNat n1) (digitsToNat n2)
          = .fin (qMul (qOfNat (digitsToNat n1)) (qOfNat (digitsToNat n2))) := rfl
      rw [h0, qMul_eq, qOfNat_eq, qOfNat_eq]
      simp [exactArith]
    · have h0 : mathCorrectAnswer ['/'] (digitsToNat n1) (digitsToNat n2)
          = jsDivNum (qOfNat (digitsToNat n1)) (qOfNat (digitsToNat n2)) := rfl
      have hb : ((digitsToNat n2 : ℚ)) ≠ 0 :=
        Nat.cast_ne_zero.mpr (hdiv rfl)
      rw [h0]
      rw [jsDivNum.eq_def]
      simp only [qOfNat_eq, qDiv_eq]
      rw [if_pos hb]
      simp [exactArith]
  rw [hred]
  refine ⟨rfl, ?_, mathScoring (mathCorrectAnswer [op] (digitsToNat n1) (digitsToNat n2)),
    rfl, ?_⟩
  · show some (jsNumToString (mathCorrectAnswer [op] (digitsToNat n1) (digitsToNat n2)))
        = _
    rw [hcorr]
  · intro response
    rw [hcorr]
    exact mathScoring_fin _ response

/-- Witness for C3 (amended) at the prompt `what is 3 + 4`. -/
theorem claim_C3_amended_witness :
    findMatch mathRe "what is 3 + 4".toList = some [['3'], ['+'], ['4']]
    ∧ (analyzePrompt "what is 3 + 4").type = PType.objective :=
  ⟨by decide,
    (claim_C3_amended "what is 3 + 4" ['3'] ['4'] '+' (by decide) (by decide)
      (by decide) (Or.inl rfl) (fun h => absurd h (by decide))).1⟩


/-- C4 counterexample: for a word-count prompt whose quoted phrase is all
whitespace, the code counts 1 (JavaScript splitting of the empty string)
while the phrase has 0 whitespace-separated words, and the scoring closure
returns 0 on the response `0`. -/
theorem claim_C4_counterexample :
    findMatch wordCountRe "how many words are in \"   \"".toList
      = some ["   ".toList]
    ∧ specWordCount "   ".toList = 0
    ∧ (analyzePrompt "how many words are in \"   \"").expectedAnswer = some "1"
    ∧ Option.map (fun f => f "0")
        (analyzePrompt "how many words are in \"   \"").evaluationFunction
      = some 0 := by decide

/-- C4 (amended): for every prompt matching the letter-count template, the
expected answer is the case-insensitive occurrence count and the closure is
binary exact-match on the first extracted integer; for every prompt whose
first matching template is the word-count one, the expected answer is the
whitespace-separated word count whenever the phrase has a non-whitespace
character (an all-whitespace phrase counts as 1), with the same binary
closure. -/
theorem claim_C4_amended :
    (∀ (p : String) (lcs wcs : List Char) (rest : List (List Char)),
      findMatch letterCountRe p.toList = some (lcs :: wcs :: rest) →
        (analyzePrompt p).type = .objective
        ∧ (analyzePrompt p).expectedAnswer
            = some (Nat.repr (specLetterCount (lcs.headD ' ') wcs))
        ∧ ∃ f, (analyzePrompt p).evaluationFunction = some f
            ∧ ∀ response,
                (f response = 1 ∨ f response = 0)
                ∧ (f response = 1
                    ↔ firstInt response
                        = some (specLetterCount (lcs.headD ' ') wcs)))
    ∧ (∀ (p : String) (phrase : List Char) (rest : List (List Char)),
      findMatch letterCountRe p.toList = none →
      findMatch wordCountRe p.toList = some (phrase :: rest) →
        (analyzePrompt p).type = .objective
        ∧ (analyzePrompt p).expectedAnswer
            = some (Nat.repr (jsTrimSplitLen phrase))
        ∧ ((∃ c ∈ phrase, ¬ isSpaceJS c = true)
            → jsTrimSplitLen phrase = specWordCount phrase)
        ∧ ((∀ c ∈ phrase, isSpaceJS c = true) → jsTrimSplitLen phrase = 1)
        ∧ ∃ f, (analyzePrompt p).evaluationFunction = some f
            ∧ ∀ response,
                (f response = 1 ∨ f response = 0)
                ∧ (f response = 1
                    ↔ firstInt response = some (jsTrimSplitLen phrase))) := by
  constructor
  · intro p lcs wcs rest hl
    rw [analyzePrompt_letter p lcs wcs rest hl]
    exact ⟨rfl, rfl, countScoring (specLetterCount (lcs.headD ' ') wcs), rfl,
      fun response => countScoring_cases _ response⟩
  · intro p phrase rest hl hw
    rw [analyzePrompt_word p phrase rest hl hw]
    refine ⟨rfl, rfl, ?_, ?_,
      countScoring (jsTrimSplitLen phrase), rfl,
      fun response => countScoring_cases _ response⟩
    · intro hns
      have hne : trimList phrase ≠ [] := by
        intro hnil
        obtain ⟨c, hc, hcs⟩ := hns
        exact hcs ((trimList_eq_nil_iff phrase).mp hnil c hc)
      unfold jsTrimSplitLen
      rw [if_neg (by simpa [List.isEmpty_iff] using hne)]
      exact countRuns_trimList phrase
    · intro hall
      unfold jsTrimSplitLen
      rw [if_pos (by simp [List.isEmpty_iff, (trimList_eq_nil_iff phrase).mpr hall])]

/-- Witness for C4 (amended) at the prompt `how many letters a are in banana`. -/
theorem claim_C4_amended_witness :
    findMatch letterCountRe "how many letters a are in banana".toList
      = some [['a'], "banana".toList]
    ∧ (analyzePrompt "how many letters a are in banana").expectedAnswer
      = some (Nat.repr (specLetterCount 'a' "banana".toList)) :=
  ⟨by decide,
    (claim_C4_amended.1 "how many letters a are in banana" ['a'] "banana".toList []
      (by decide)).2.1⟩

/-- C10 counterexample: a prompt containing `what is 1 / 0` inside a quoted
phrase matches the arithmetic template, but the word-count template is
tried first, so the classification is a word count with expected answer
`5`, not `Infinity`, and the closure returns 1 on the response `5`. -/
theorem claim_C10_counterexample :
    findMatch mathRe "how many words are in \"what is 1 / 0\"".toList
      = some [['1'], ['/'], ['0']]
    ∧ digitsToNat ['0'] = 0
    ∧ (analyzePrompt "how many words are in \"what is 1 / 0\"").expectedAnswer
      = some "5"
    ∧ (analyzePrompt "how many words are in \"what is 1 / 0\"").expectedAnswer
      ≠ some "Infinity"
    ∧ Option.map (fun f => f "5")
        (analyzePrompt "how many words are in \"what is 1 / 0\"").evaluationFunction
      = some 1 := by decide

/-- C10 (amended): for every prompt whose first matching template is the
arithmetic one with divisor 0, the classifier still returns an objective
classification, whose expected answer is `Infinity` (or `NaN` when the
dividend is 0), and whose scoring closure returns 0 on every response. -/
theorem claim_C10_amended (p : String) (n1 n2 : List Char)
    (hl : findMatch letterCountRe p.toList = none)
    (hw : findMatch wordCountRe p.toList = none)
    (hm : findMatch mathRe p.toList = some [n1, ['/'], n2])
    (hb : digitsToNat n2 = 0) :
    (analyzePrompt p).type = .objective
    ∧ (analyzePrompt p).expectedAnswer
        = some (if digitsToNat n1 = 0 then "NaN" else "Infinity")
    ∧ ∃ f, (analyzePrompt p).evaluationFunction = some f
        ∧ ∀ response, f response = 0 := by
  have hred := analyzePrompt_math p n1 ['/'] n2 [] hl hw hm
  have hcorr : mathCorrectAnswer ['/'] (digitsToNat n1) (digitsToNat n2)
      = if digitsToNat n1 = 0 then JSNum.nan else .inf true := by
    have h0 : mathCorrectAnswer ['/'] (digitsToNat n1) (digitsToNat n2)
        = jsDivNum (qOfNat (digitsToNat n1)) (qOfNat (digitsToNat n2)) := rfl
    rw [h0, hb, jsDivNum.eq_def]
    by_cases ha : digitsToNat n1 = 0
    · simp [qOfNat_eq, ha]
    · have hpos : (0 : ℚ) < (digitsToNat n1 : ℚ) :=
        Nat.cast_pos.mpr (Nat.pos_of_ne_zero ha)
      simp [qOfNat_eq, ha, hpos]
  rw [hred]
  refine ⟨rfl, ?_,
    mathScoring (mathCorrectAnswer ['/'] (digitsToNat n1) (digitsToNat n2)),
    rfl, ?_⟩
  · show some (jsNumToString
        (mathCorrectAnswer ['/'] (digitsToNat n1) (digitsToNat n2))) = _
    rw [hcorr]
    by_cases ha : digitsToNat n1 = 0
    · rw [if_pos ha, if_pos ha]
      rfl
    · rw [if_neg ha, if_neg ha]
      rfl
  · intro response
    rw [hcorr]
    by_cases ha : digitsToNat n1 = 0
    · rw [if_pos ha]
      exact mathScoring_notFin _ response (Or.inr rfl)
    · rw [if_neg ha]
      exact mathScoring_notFin _ response (Or.inl ⟨true, rfl⟩)

/-- Witness for C10 (amended) at the prompt `what is 1 / 0`. -/
theorem claim_C10_amended_witness :
    findMatch mathRe "what is 1 / 0".toList = some [['1'], ['/'], ['0']]
    ∧ (analyzePrompt "what is 1 / 0").expectedAnswer
      = some (if digitsToNat ['1'] = 0 then "NaN" else "Infinity") :=
  ⟨by decide,
    (claim_C10_amended "what is 1 / 0" ['1'] ['0'] (by decide) (by decide)
      (by decide) rfl).2.1⟩


theorem evaluateWithRubric_subjective (response p : String)
    (judge : Except Unit (Option String))
    (hsub : (analyzePrompt p).type = PType.subjective) :
    evaluateWithRubric response p judge = subjectiveScores judge := by
  rcases hfe : (analyzePrompt p).evaluationFunction with _ | f <;>
    simp [evaluateWithRubric, hsub, hfe]

/-! Rubric claims. -/

/-- C6: on the subjective path, a failed judge call, a judge text without a
brace-delimited region, or a judge text whose extracted region does not
parse as JSON all yield exactly the neutral scores 0.5/0.5. -/
theorem claim_C6 (p response : String) (judge : Except Unit (Option String))
    (hsub : (analyzePrompt p).type = PType.subjective)
    (hfail : judge = .error ()
      ∨ (∃ c, judge = .ok c ∧ extractJsonText (judgeText c) = none)
      ∨ (∃ c txt, judge = .ok c ∧ extractJsonText (judgeText c) = some txt
          ∧ jsonParse txt = none)) :
    (evaluateWithRubric response p judge).accuracy = .fin (1 / 2)
    ∧ (evaluateWithRubric response p judge).relevancy = .fin (1 / 2) := by
  rw [evaluateWithRubric_subjective response p judge hsub]
  have hps : parsedJudgeScores judge = none := by
    rcases hfail with h | ⟨c, hc, hx⟩ | ⟨c, txt, hc, hx, hp⟩
    · subst h
      rfl
    · subst hc
      simp [parsedJudgeScores, hx]
    · subst hc
      simp [parsedJudgeScores, hx, hp]
  simp [subjectiveScores, hps, neutralScores]

/-- Witness for C6 at a failed judge call. -/
theorem claim_C6_witness :
    (analyzePrompt "tell me a joke").type = PType.subjective
    ∧ (evaluateWithRubric "ok" "tell me a joke"
        (Except.error ())).accuracy = .fin (1 / 2) :=
  ⟨by decide, (claim_C6 "tell me a joke" "ok" (.error ()) (by decide) (Or.inl rfl)).1⟩

/-- C2 counterexample: an unmatched prompt routes to the judge, but a judge
reply whose JSON carries an accuracy of 200 produces an accuracy of 2,
outside the closed interval [0,1] (the code divides by 100 without
clamping). -/
theorem claim_C2_counterexample :
    (analyzePrompt "tell me a joke").type = PType.subjective
    ∧ (evaluateWithRubric "ok" "tell me a joke"
        (Except.ok (some "\x7b\"accuracy\": 200, \"relevancy\": 50\x7d"))).accuracy
      = JSNum.fin 2
    ∧ jsNumInUnit (JSNum.fin 2) = false :=
  ⟨by decide, by rfl, by decide⟩

/-- C2 (amended): prompts matching none of the three templates route to the
judge path; the result is the in-range neutral 0.5/0.5 whenever the judge
call fails, no brace region exists, or parsing throws, and it lies in [0,1]
whenever the parsed accuracy and relevancy coerce to numbers within
[0,100]; out-of-range judge numbers are divided by 100 unclamped and may
leave [0,1]. -/
theorem claim_C2_amended (p response : String)
    (judge : Except Unit (Option String))
    (hl : findMatch letterCountRe p.toList = none)
    (hw : findMatch wordCountRe p.toList = none)
    (hm : findMatch mathRe p.toList = none) :
    evaluateWithRubric response p judge = subjectiveScores judge
    ∧ (parsedJudgeScores judge = none →
        (evaluateWithRubric response p judge).accuracy = .fin (1 / 2)
        ∧ (evaluateWithRubric response p judge).relevancy = .fin (1 / 2)
        ∧ jsNumInUnit (JSNum.fin (1 / 2)) = true)
    ∧ (∀ scores, parsedJudgeScores judge = some scores →
        (∀ qa, jsToNumberOpt (scores.getField "accuracy") = .fin qa
            → 0 ≤ qa → qa ≤ 100
            → jsNumInUnit (evaluateWithRubric response p judge).accuracy = true)
        ∧ (∀ qr, jsToNumberOpt (scores.getField "relevancy") = .fin qr
            → 0 ≤ qr → qr ≤ 100
            → jsNumInUnit (evaluateWithRubric response p judge).relevancy = true)) := by
  have hsub : (analyzePrompt p).type = PType.subjective := by
    rw [analyzePrompt_subjective p hl hw hm]
  have hroute := evaluateWithRubric_subjective response p judge hsub
  refine ⟨hroute, ?_, ?_⟩
  · intro hps
    rw [hroute]
    refine ⟨by simp [subjectiveScores, hps, neutralScores],
      by simp [subjectiveScores, hps, neutralScores], ?_⟩
    simp only [jsNumInUnit, Bool.and_eq_true, decide_eq_true_eq]
    norm_num
  · intro scores hps
    have hacc : (subjectiveScores judge).accuracy
        = jsDiv100 (jsToNumberOpt (scores.getField "accuracy")) := by
      simp [subjectiveScores, hps]
    have hrel : (subjectiveScores judge).relevancy
        = jsDiv100 (jsToNumberOpt (scores.getField "relevancy")) := by
      simp [subjectiveScores, hps]
    constructor
    · intro qa hqa h0 h100
      rw [hroute, hacc, hqa]
      simp only [jsDiv100, qDiv_eq, qOfNat_eq, jsNumInUnit, Bool.and_eq_true,
        decide_eq_true_eq]
      refine ⟨div_nonneg h0 (by norm_num), ?_⟩
      rw [div_le_one (by norm_num : (0 : ℚ) < ((100 : Nat) : ℚ))]
      exact le_trans h100 (by norm_num)
    · intro qr hqr h0 h100
      rw [hroute, hrel, hqr]
      simp only [jsDiv100, qDiv_eq, qOfNat_eq, jsNumInUnit, Bool.and_eq_true,
        decide_eq_true_eq]
      refine ⟨div_nonneg h0 (by norm_num), ?_⟩
      rw [div_le_one (by norm_num : (0 : ℚ) < ((100 : Nat) : ℚ))]
      exact le_trans h100 (by norm_num)

/-- Witness for C2 (amended) at an in-range judge reply. -/
theorem claim_C2_amended_witness :
    parsedJudgeScores
        (Except.ok (some "\x7b\"accuracy\": 50, \"relevancy\": 50\x7d"))
      = some (JSValue.obj [("accuracy", JSValue.num 50), ("relevancy", JSValue.num 50)])
    ∧ jsNumInUnit (evaluateWithRubric "ok" "tell me a joke"
        (Except.ok (some "\x7b\"accuracy\": 50, \"relevancy\": 50\x7d"))).accuracy
      = true :=
  ⟨by rfl,
    ((claim_C2_amended "tell me a joke" "ok"
        (Except.ok (some "\x7b\"accuracy\": 50, \"relevancy\": 50\x7d"))
        (by decide) (by decide) (by decide)).2.2
      (JSValue.obj [("accuracy", JSValue.num 50), ("relevancy", JSValue.num 50)])
      (by rfl)).1 50 (by rfl) (by norm_num) (by norm_num)⟩


/-! Lemmas characterizing the brace regex: its leftmost match runs from the
first opening brace to the last closing brace. -/

theorem matchAt_seq (r1 r2 : Re) (s : List Char) :
    Re.matchAt (Re.seq r1 r2) s
    = (Re.matchAt r1 s).flatMap (fun pr =>
        (Re.matchAt r2 pr.2).map (fun qr => (pr.1 ++ qr.1, qr.2))) := rfl

theorem matchAt_star (p : Char → Bool) (s : List Char) :
    Re.matchAt (Re.star p) s
    = (starRests p s).map (fun r => (([] : List (List Char)), r)) := rfl

theorem matchAt_group (r : Re) (s : List Char) :
    Re.matchAt (Re.group r) s
    = (Re.matchAt r s).map (fun pr =>
        ((s.take (s.length - pr.2.length)) :: pr.1, pr.2)) := rfl

theorem matchAt_closeEps (r : List Char) :
    Re.matchAt (Re.seq (Re.cls (fun c => c == chClose)) Re.eps) r
    = (match r with
       | [] => []
       | d :: r2 => if d == chClose then [(([] : List (List Char)), r2)] else []) := by
  cases r with
  | nil => rfl
  | cons d r2 =>
      by_cases hd : d == chClose
      · simp [Re.matchAt, hd]
      · simp [Re.matchAt, hd]

theorem starClose_matchAt (t : List Char) :
    Re.matchAt (Re.seq (Re.star (fun _ => true))
      (Re.seq (Re.cls (fun c => c == chClose)) Re.eps)) t
    = closeOutcomes t := by
  induction t with
  | nil => rfl
  | cons c t ih =>
      rw [matchAt_seq, matchAt_star] at ih ⊢
      rw [show starRests (fun _ => true) (c :: t)
          = starRests (fun _ => true) t ++ [c :: t] from rfl]
      rw [List.map_append, List.flatMap_append, ih]
      rw [show closeOutcomes (c :: t)
          = closeOutcomes t
            ++ (if c == chClose then [(([] : List (List Char)), t)] else [])
          from rfl]
      congr 1
      rw [show List.map (fun r => (([] : List (List Char)), r)) [c :: t]
          = [(([] : List (List Char)), c :: t)] from rfl]
      rw [List.flatMap_cons, List.flatMap_nil, List.append_nil, matchAt_closeEps]
      by_cases hd : c == chClose
      · simp [hd]
      · simp [hd]

theorem lastCloseIdx_lt_length (t : List Char) (i : Nat)
    (h : lastCloseIdx t = some i) : i < t.length := by
  induction t generalizing i with
  | nil => simp [lastCloseIdx] at h
  | cons c t ih =>
      simp only [lastCloseIdx] at h
      cases hL : lastCloseIdx t with
      | some j =>
          rw [hL] at h
          cases h
          exact Nat.succ_lt_succ (ih j hL)
      | none =>
          rw [hL] at h
          by_cases hc : c == chClose
          · rw [if_pos hc] at h
            cases h
            exact Nat.succ_pos _
          · rw [if_neg hc] at h
            cases h

theorem closeOutcomes_head (t : List Char) :
    (closeOutcomes t).head?
    = (lastCloseIdx t).map
        (fun i => (([] : List (List Char)), t.drop (i + 1))) := by
  induction t with
  | nil => rfl
  | cons c t ih =>
      rw [show closeOutcomes (c :: t)
          = closeOutcomes t
            ++ (if c == chClose then [(([] : List (List Char)), t)] else [])
          from rfl]
      rw [List.head?_append, ih]
      cases hL : lastCloseIdx t with
      | some i =>
          rw [show lastCloseIdx (c :: t)
              = (match lastCloseIdx t with
                 | some j => some (j + 1)
                 | none => if c == chClose then some 0 else none) from rfl, hL]
          rfl
      | none =>
          rw [show lastCloseIdx (c :: t)
              = (match lastCloseIdx t with
                 | some j => some (j + 1)
                 | none => if c == chClose then some 0 else none) from rfl, hL]
          by_cases hc : c == chClose
          · rw [if_pos hc, if_pos hc]
            rfl
          · rw [if_neg hc, if_neg hc]
            rfl

theorem matchAt_jsonObjRe_cons (c : Char) (t : List Char) :
    (Re.matchAt jsonObjRe (c :: t)).head?
    = if c == chOpen then
        (lastCloseIdx t).map
          (fun i => ([c :: t.take (i + 1)], t.drop (i + 1)))
      else none := by
  rw [show jsonObjRe
      = Re.group (Re.seq (Re.cls (fun x => x == chOpen))
          (Re.seq (Re.star (fun _ => true))
            (Re.seq (Re.cls (fun x => x == chClose)) Re.eps))) from rfl]
  rw [matchAt_group, matchAt_seq]
  by_cases hc : c == chOpen
  · rw [show Re.matchAt (Re.cls (fun x => x == chOpen)) (c :: t)
        = [(([] : List (List Char)), t)] from by simp [Re.matchAt, hc]]
    rw [List.flatMap_cons, List.flatMap_nil, List.append_nil, starClose_matchAt]
    rw [List.map_map, List.head?_map, closeOutcomes_head, if_pos hc]
    cases hL : lastCloseIdx t with
    | none => rfl
    | some i =>
        have hlen : i < t.length := lastCloseIdx_lt_length t i hL
        simp only [Option.map_some, List.map_map, Function.comp_apply]
        have harg : (c :: t).take ((c :: t).length - (t.drop (i + 1)).length)
            = c :: t.take (i + 1) := by
          rw [List.length_drop, List.length_cons,
            show t.length + 1 - (t.length - (i + 1)) = i + 2 by omega,
            List.take_succ_cons]
        simp [harg]
        rw [show t.length + 1 - (t.length - (i + 1)) = i + 2 by omega]
        rw [List.take_succ_cons]
  · rw [show Re.matchAt (Re.cls (fun x => x == chOpen)) (c :: t)
        = [] from by simp [Re.matchAt, hc]]
    rw [if_neg hc]
    rfl

theorem findMatch_jsonObjRe (s : List Char) :
    findMatch jsonObjRe s = (braceSpan s).map (fun span => [span]) := by
  induction s with
  | nil => rfl
  | cons c t ih =>
      have hhead := matchAt_jsonObjRe_cons c t
      by_cases hc : c == chOpen
      · rw [if_pos hc] at hhead
        have hceq : c = chOpen := by
          have h2 := hc
          simp only [beq_iff_eq] at h2
          exact h2
        cases hL : lastCloseIdx t with
        | some i =>
            rw [hL] at hhead
            simp at hhead
            obtain ⟨l2, hl2⟩ : ∃ l2, Re.matchAt jsonObjRe (c :: t)
                = ([c :: t.take (i + 1)], t.drop (i + 1)) :: l2 := by
              cases hM : Re.matchAt jsonObjRe (c :: t) with
              | nil => rw [hM] at hhead; simp at hhead
              | cons x xs =>
                  rw [hM] at hhead
                  simp only [List.head?] at hhead
                  cases hhead
                  exact ⟨xs, rfl⟩
            rw [show findMatch jsonObjRe (c :: t)
                = (match Re.matchAt jsonObjRe (c :: t) with
                   | pr :: _ => some pr.1
                   | [] => findMatch jsonObjRe t) from rfl, hl2]
            have hbs : braceSpan (c :: t) = some (c :: t.take (i + 1)) := by
              subst hceq
              rw [show braceSpan (chOpen :: t)
                  = (match firstOpenIdx (chOpen :: t), lastCloseIdx (chOpen :: t) with
                     | some i, some j =>
                        if i < j
                        then some (((chOpen :: t).drop i).take (j - i + 1))
                        else none
                     | _, _ => none) from rfl]
              rw [show firstOpenIdx (chOpen :: t) = some 0 from by
                rw [show firstOpenIdx (chOpen :: t)
                    = (if chOpen == chOpen then some 0
                       else (firstOpenIdx t).map (· + 1)) from rfl]
                rfl]
              rw [show lastCloseIdx (chOpen :: t)
                  = (match lastCloseIdx t with
                     | some j => some (j + 1)
                     | none => if chOpen == chClose then some 0 else none)
                  from rfl, hL]
              rw [show (match (some 0 : Option Nat), (some (i + 1) : Option Nat) with
                   | some i2, some j =>
                      if i2 < j
                      then some (((chOpen :: t).drop i2).take (j - i2 + 1))
                      else none
                   | _, _ => none)
                  = if 0 < i + 1
                    then some (((chOpen :: t).drop 0).take (i + 1 - 0 + 1))
                    else none from rfl]
              rw [if_pos (Nat.succ_pos i), List.drop_zero]
              rw [show i + 1 - 0 + 1 = i + 2 by omega]
              rw [List.take_succ_cons]
            rw [hbs]
            rfl
        | none =>
            rw [hL] at hhead
            simp at hhead
            have hM : Re.matchAt jsonObjRe (c :: t) = [] := hhead
            rw [show findMatch jsonObjRe (c :: t)
                = (match Re.matchAt jsonObjRe (c :: t) with
                   | pr :: _ => some pr.1
                   | [] => findMatch jsonObjRe t) from rfl, hM, ih]
            have hbs : braceSpan (c :: t) = none := by
              subst hceq
              rw [show braceSpan (chOpen :: t)
                  = (match firstOpenIdx (chOpen :: t), lastCloseIdx (chOpen :: t) with
                     | some i, some j =>
                        if i < j
                        then some (((chOpen :: t).drop i).take (j - i + 1))
                        else none
                     | _, _ => none) from rfl]
              rw [show lastCloseIdx (chOpen :: t)
                  = (match lastCloseIdx t with
                     | some j => some (j + 1)
                     | none => if chOpen == chClose then some 0 else none)
                  from rfl, hL]
              rw [show (chOpen == chClose) = false from by decide]
              cases firstOpenIdx (chOpen :: t) <;> rfl
            have hbt : braceSpan t = none := by
              rw [show braceSpan t
                  = (match firstOpenIdx t, lastCloseIdx t with
                     | some i, some j =>
                        if i < j then some ((t.drop i).take (j - i + 1)) else none
                     | _, _ => none) from rfl, hL]
              cases firstOpenIdx t <;> rfl
            rw [hbs, hbt]
      · rw [if_neg hc] at hhead
        have hM : Re.matchAt jsonObjRe (c :: t) = [] :=
          List.head?_eq_none_iff.mp hhead
        rw [show findMatch jsonObjRe (c :: t)
            = (match Re.matchAt jsonObjRe (c :: t) with
               | pr :: _ => some pr.1
               | [] => findMatch jsonObjRe t) from rfl, hM, ih]
        have hfo : firstOpenIdx (c :: t) = (firstOpenIdx t).map (· + 1) := by
          rw [show firstOpenIdx (c :: t)
              = (if c == chOpen then some 0 else (firstOpenIdx t).map (· + 1))
              from rfl, if_neg hc]
        have hbs : braceSpan (c :: t) = braceSpan t := by
          rw [show braceSpan (c :: t)
              = (match firstOpenIdx (c :: t), lastCloseIdx (c :: t) with
                 | some i, some j =>
                    if i < j
                    then some (((c :: t).drop i).take (j - i + 1))
                    else none
                 | _, _ => none) from rfl]
          rw [show braceSpan t
              = (match firstOpenIdx t, lastCloseIdx t with
                 | some i, some j =>
                    if i < j then some ((t.drop i).take (j - i + 1)) else none
                 | _, _ => none) from rfl]
          rw [hfo]
          cases hfO : firstOpenIdx t with
          | none =>
              rw [show (none : Option Nat).map (· + 1) = none from rfl]
          | some i =>
              rw [show (some i : Option Nat).map (· + 1) = some (i + 1) from rfl]
              rw [show lastCloseIdx (c :: t)
                  = (match lastCloseIdx t with
                     | some j => some (j + 1)
                     | none => if c == chClose then some 0 else none)
                  from rfl]
              cases hL : lastCloseIdx t with
              | some j =>
                  show (if i + 1 < j + 1
                        then some (((c :: t).drop (i + 1)).take (j + 1 - (i + 1) + 1))
                        else none)
                      = (if i < j then some ((t.drop i).take (j - i + 1)) else none)
                  by_cases hij : i < j
                  · rw [if_pos (Nat.succ_lt_succ hij), if_pos hij]
                    rw [List.drop_succ_cons]
                    rw [show j + 1 - (i + 1) + 1 = j - i + 1 from by omega]
                  · rw [if_neg (fun hlt => hij (Nat.lt_of_succ_lt_succ hlt)),
                      if_neg hij]
              | none =>
                  by_cases hcc : c == chClose
                  · rw [if_pos hcc]
                    show (if i + 1 < 0 then
                          some (((c :: t).drop (i + 1)).take (0 - (i + 1) + 1))
                          else none) = none
                    rw [if_neg (by omega)]
                  · rw [if_neg hcc]
        rw [hbs]


/-- C5 counterexample: the first JSON object in the judge text shown below
has accuracy 80, so extracting it would give accuracy 0.8; the code instead
matches greedily from the first opening brace to the last closing brace,
fails to parse, and returns the neutral 0.5. -/
theorem claim_C5_counterexample :
    firstJsonObjectSpec
        "\x7b\"accuracy\": 80, \"relevancy\": 60\x7d junk \x7b\x7d".toList
      = some "\x7b\"accuracy\": 80, \"relevancy\": 60\x7d"
    ∧ jsToNumberOpt
        (((jsonParse "\x7b\"accuracy\": 80, \"relevancy\": 60\x7d").getD
            JSValue.null).getField "accuracy")
      = JSNum.fin 80
    ∧ jsDiv100 (JSNum.fin 80) ≠ JSNum.fin (1 / 2)
    ∧ (evaluateWithRubric "ok" "tell me a joke"
        (Except.ok
          (some "\x7b\"accuracy\": 80, \"relevancy\": 60\x7d junk \x7b\x7d"))).accuracy
      = JSNum.fin (1 / 2) := by
  refine ⟨by rfl, by rfl, ?_, by rfl⟩
  intro h
  have h2 : (80 : ℚ) / ((100 : Nat) : ℚ) = 1 / 2 := by
    have h3 := h
    simp only [jsDiv100, qDiv_eq, qOfNat_eq] at h3
    injection h3
  norm_num at h2

/-- C5 (amended): on the subjective path the code extracts the substring
running from the first opening brace through the last closing brace of the
judge text (the greedy regex match), parses it, and on success returns its
accuracy and relevancy fields divided by 100. -/
theorem claim_C5_amended (p response : String)
    (judge : Except Unit (Option String)) (c : Option String)
    (txt : String) (scores : JSValue)
    (hsub : (analyzePrompt p).type = PType.subjective)
    (hj : judge = Except.ok c)
    (hx : extractJsonText (judgeText c) = some txt)
    (hp : jsonParse txt = some scores) :
    (∀ s : String, extractJsonText s = (braceSpan s.toList).map String.mk)
    ∧ (evaluateWithRubric response p judge).accuracy
        = jsDiv100 (jsToNumberOpt (scores.getField "accuracy"))
    ∧ (evaluateWithRubric response p judge).relevancy
        = jsDiv100 (jsToNumberOpt (scores.getField "relevancy")) := by
  have hps : parsedJudgeScores judge = some scores := by
    subst hj
    rw [show parsedJudgeScores (Except.ok c)
        = (match extractJsonText (judgeText c) with
           | none => none
           | some txt2 => jsonParse txt2) from rfl, hx]
    exact hp
  have hroute := evaluateWithRubric_subjective response p judge hsub
  refine ⟨?_, ?_, ?_⟩
  · intro s
    rw [show extractJsonText s
        = (match findMatch jsonObjRe s.toList with
           | some (m :: _) => some (String.mk m)
           | _ => none) from rfl, findMatch_jsonObjRe]
    cases hb : braceSpan s.toList with
    | none => rfl
    | some span => rfl
  · rw [hroute]
    simp [subjectiveScores, hps]
  · rw [hroute]
    simp [subjectiveScores, hps]

/-- Witness for C5 (amended) at a concrete judge reply. -/
theorem claim_C5_amended_witness :
    (evaluateWithRubric "ok" "tell me a joke"
        (Except.ok (some "\x7b\"accuracy\": 80, \"relevancy\": 60\x7d"))).accuracy
      = jsDiv100 (jsToNumberOpt
          ((JSValue.obj [("accuracy", JSValue.num 80),
              ("relevancy", JSValue.num 60)]).getField "accuracy")) :=
  (claim_C5_amended "tell me a joke" "ok"
      (Except.ok (some "\x7b\"accuracy\": 80, \"relevancy\": 60\x7d"))
      (some "\x7b\"accuracy\": 80, \"relevancy\": 60\x7d")
      "\x7b\"accuracy\": 80, \"relevancy\": 60\x7d"
      (JSValue.obj [("accuracy", JSValue.num 80), ("relevancy", JSValue.num 60)])
      (by decide) rfl (by rfl) (by rfl)).2.1

end LLMEval

